import Mathlib

/-!
Shallow embedding of the CF-Progress-Management backend sync engine
(src/backend/src/services/codeforcesService.ts, dataSyncService part,
src/backend/src/services/cronJobService.ts and the Student schema pre-save
hook of src/backend/src/models/Student.ts).

Remote I/O is represented by a `RemoteApi` oracle giving the outcome of
each HTTP endpoint, the document store by an explicit `Store` value, and
the observable effects (rate-limit delays and API requests) by a trace of
`Event`s that every operation returns alongside its result.  Timestamps
are integers (milliseconds), document ids are naturals.
-/

/-- Observable effects of the services: a setTimeout delay of `ms`
milliseconds and an outgoing HTTP request to `endpoint`. -/
inductive Event where
  | delay (ms : Nat)
  | apiCall (endpoint : String)
  deriving DecidableEq

/-- Single-quote character, used to build the exact log and error message
strings of the services. -/
def squote : String := String.singleton (Char.ofNat 39)

/-- Wraps a string in single quotes as the service messages do. -/
def quoted (s : String) : String := squote ++ s ++ squote

/-- True when the first character list is a prefix of the second. -/
def charsPrefix : List Char → List Char → Bool
  | [], _ => true
  | _ :: _, [] => false
  | a :: as, b :: bs => a == b && charsPrefix as bs

/-- True when `pat` occurs inside the character list. -/
def charsInfix (pat : List Char) : List Char → Bool
  | [] => charsPrefix pat []
  | c :: rest => charsPrefix pat (c :: rest) || charsInfix pat rest

/-- Boolean substring test, modelling JavaScript String.prototype.includes. -/
def hasSubstr (s pat : String) : Bool := charsInfix pat.data s.data

/-- CodeforcesUser (codeforcesService.ts).  Of the profile fields only
`handle`, `rating` and `maxRating` are ever read by the sync engine; the
remaining optional profile fields are payload that no modelled code
inspects and are omitted. -/
structure CodeforcesUser where
  handle : String
  rating : Option Int
  maxRating : Option Int
  deriving DecidableEq

/-- CodeforcesRatingChange (codeforcesService.ts). -/
structure CodeforcesRatingChange where
  contestId : Nat
  contestName : String
  handle : String
  rank : Nat
  ratingUpdateTimeSeconds : Int
  oldRating : Int
  newRating : Int
  deriving DecidableEq

/-- Nested problem object of ISubmission (types/models.ts). -/
structure ProblemInfo where
  contestId : Option Nat
  index : String
  name : String
  type : String
  rating : Option Int
  tags : List String
  deriving DecidableEq

/-- Member entry of the author object of ISubmission (types/models.ts). -/
structure AuthorMember where
  handle : String
  deriving DecidableEq

/-- Nested author object of ISubmission (types/models.ts). -/
structure AuthorInfo where
  contestId : Option Nat
  members : List AuthorMember
  participantType : String
  ghost : Bool
  startTimeSeconds : Option Int
  deriving DecidableEq

/-- ISubmission (types/models.ts), a submission as returned by the remote
user.status endpoint. -/
structure ISubmission where
  id : Nat
  contestId : Option Nat
  creationTimeSeconds : Int
  relativeTimeSeconds : Int
  problem : ProblemInfo
  author : AuthorInfo
  programmingLanguage : String
  verdict : String
  testset : String
  passedTestCount : Nat
  timeConsumedMillis : Nat
  memoryConsumedBytes : Nat
  deriving DecidableEq

/-- IContest (types/models.ts). -/
structure IContest where
  contestId : Nat
  contestName : String
  phase : String
  frozen : Bool
  durationSeconds : Int
  startTimeSeconds : Int
  relativeTimeSeconds : Option Int
  deriving DecidableEq

/-- A stored Student document (models/Student.ts, IStudentDocument).
`id` stands for the Mongo _id; `lastDataUpdate` is a millisecond
timestamp or null. -/
structure StudentDoc where
  id : Nat
  name : String
  email : String
  phoneNumber : String
  codeforcesHandle : String
  currentRating : Option Int
  maxRating : Option Int
  lastDataUpdate : Option Int
  emailNotificationsEnabled : Bool
  reminderEmailCount : Nat
  deriving DecidableEq

/-- A stored Submission document (models/Submission.ts), exactly the
fields DataSyncService.syncSubmissions writes. -/
structure SubmissionDoc where
  studentId : Nat
  codeforcesHandle : String
  submissionId : Nat
  contestId : Option Nat
  creationTimeSeconds : Int
  relativeTimeSeconds : Int
  problem : ProblemInfo
  author : AuthorInfo
  programmingLanguage : String
  verdict : String
  testset : String
  passedTestCount : Nat
  timeConsumedMillis : Nat
  memoryConsumedBytes : Nat
  deriving DecidableEq

/-- A stored RatingChange document (models/RatingChange.ts), exactly the
fields DataSyncService.syncRatingChanges writes. -/
structure RatingChangeDoc where
  studentId : Nat
  codeforcesHandle : String
  contestId : Nat
  contestName : String
  handle : String
  rank : Nat
  ratingUpdateTimeSeconds : Int
  oldRating : Int
  newRating : Int
  deriving DecidableEq

/-- The document store: the Student collection and the three
append-mostly collections. -/
structure Store where
  students : List StudentDoc
  submissions : List SubmissionDoc
  ratingChanges : List RatingChangeDoc
  contests : List IContest
  deriving DecidableEq

/-- Oracle for the remote Codeforces API: the outcome each endpoint would
return, after CodeforcesService.makeRequest normalised transport and
API-status failures into a thrown error message.  `userStatus` takes the
optional from/count paging parameters of getUserSubmissions. -/
structure RemoteApi where
  userInfo : String → Except String (List CodeforcesUser)
  userRating : String → Except String (List CodeforcesRatingChange)
  userStatus : String → Option Nat → Option Nat → Except String (List ISubmission)
  contestList : Option Bool → Except String (List IContest)

namespace CodeforcesService

/-- REQUEST_DELAY of CodeforcesService: 200 ms before every request. -/
def REQUEST_DELAY : Nat := 200

/-- Events emitted by one makeRequest call: the fixed rate-limit delay
followed by the HTTP request itself. -/
def makeRequestEvents (endpoint : String) : List Event :=
  [Event.delay REQUEST_DELAY, Event.apiCall endpoint]

/-- getUserInfo: requests /user.info and returns the first user of the
result list, failing when the list is empty or the request failed. -/
def getUserInfo (api : RemoteApi) (handle : String) :
    List Event × Except String CodeforcesUser :=
  (makeRequestEvents ("/user.info?handles=" ++ handle),
    match api.userInfo handle with
    | Except.error e => Except.error e
    | Except.ok [] => Except.error ("User " ++ quoted handle ++ " not found")
    | Except.ok (u :: _) => Except.ok u)

/-- getUserRatingChanges: requests /user.rating; a failure whose message
contains "not found" or "rating" is treated as an empty history. -/
def getUserRatingChanges (api : RemoteApi) (handle : String) :
    List Event × Except String (List CodeforcesRatingChange) :=
  (makeRequestEvents ("/user.rating?handle=" ++ handle),
    match api.userRating handle with
    | Except.ok l => Except.ok l
    | Except.error e =>
        if hasSubstr e "not found" || hasSubstr e "rating" then Except.ok []
        else Except.error e)

/-- Endpoint string built by getUserSubmissions from the optional from and
count parameters. -/
def userStatusEndpoint (handle : String) (fro cnt : Option Nat) : String :=
  "/user.status?handle=" ++ handle
    ++ (match fro with | some f => "&from=" ++ toString f | none => "")
    ++ (match cnt with | some c => "&count=" ++ toString c | none => "")

/-- getUserSubmissions: requests /user.status; a failure whose message
contains "not found" is treated as an empty submission list. -/
def getUserSubmissions (api : RemoteApi) (handle : String) (fro cnt : Option Nat) :
    List Event × Except String (List ISubmission) :=
  (makeRequestEvents (userStatusEndpoint handle fro cnt),
    match api.userStatus handle fro cnt with
    | Except.ok l => Except.ok l
    | Except.error e =>
        if hasSubstr e "not found" then Except.ok [] else Except.error e)

/-- getContests: requests /contest.list with the optional gym flag. -/
def getContests (api : RemoteApi) (gym : Option Bool) :
    List Event × Except String (List IContest) :=
  (makeRequestEvents ("/contest.list" ++
      (match gym with
       | some g => "?gym=" ++ (if g then "true" else "false")
       | none => "")),
    api.contestList gym)

/-- validateHandle: true exactly when getUserInfo succeeds. -/
def validateHandle (api : RemoteApi) (handle : String) : List Event × Bool :=
  let r := getUserInfo api handle
  (r.1, match r.2 with | Except.ok _ => true | Except.error _ => false)

/-- Result record of getUserStats. -/
structure UserStats where
  user : CodeforcesUser
  ratingChanges : List CodeforcesRatingChange
  submissionsCount : Nat
  deriving DecidableEq

/-- getUserStats: runs getUserInfo, getUserRatingChanges and a one-element
getUserSubmissions page (Promise.allSettled), throws "not found" when the
user fetch failed, replaces a failed rating fetch by an empty history, and
then counts all submissions with a full getUserSubmissions whose failure is
logged and replaced by count 0. -/
def getUserStats (api : RemoteApi) (handle : String) :
    List Event × Except String UserStats :=
  let r1 := getUserInfo api handle
  let r2 := getUserRatingChanges api handle
  let r3 := getUserSubmissions api handle (some 1) (some 1)
  let evs := r1.1 ++ r2.1 ++ r3.1
  match r1.2 with
  | Except.error _ =>
      (evs, Except.error ("User " ++ quoted handle ++ " not found"))
  | Except.ok u =>
      let ratingData := match r2.2 with | Except.ok l => l | Except.error _ => []
      let r4 := getUserSubmissions api handle none none
      let total := match r4.2 with | Except.ok l => l.length | Except.error _ => 0
      (evs ++ r4.1, Except.ok { user := u, ratingChanges := ratingData, submissionsCount := total })

end CodeforcesService

/-- SyncSummary (dataSyncService). -/
structure SyncSummary where
  submissionsAdded : Nat
  ratingChangesAdded : Nat
  contestsAdded : Nat
  currentRating : Option Int
  maxRating : Option Int
  deriving DecidableEq

/-- SyncResult (dataSyncService). -/
structure SyncResult where
  success : Bool
  message : String
  data : Option SyncSummary
  error : Option String
  deriving DecidableEq

/-- One entry of GlobalSyncStats.results. -/
structure StudentSyncEntry where
  studentId : Nat
  handle : String
  result : SyncResult
  deriving DecidableEq

/-- GlobalSyncStats (dataSyncService). -/
structure GlobalSyncStats where
  totalStudents : Nat
  successfulSyncs : Nat
  failedSyncs : Nat
  results : List StudentSyncEntry
  deriving DecidableEq

namespace DataSyncService

/-- STUDENT_DELAY_MS: the 1000 ms delay between students in a batch. -/
def STUDENT_DELAY_MS : Nat := 1000

/-- Mongo updateOne semantics on the contest collection: replace the first
document matching the contestId filter. -/
def replaceFirstContest : List IContest → IContest → List IContest
  | [], _ => []
  | d :: rest, c =>
      if d.contestId == c.contestId then c :: rest
      else d :: replaceFirstContest rest c

/-- Loop body of syncContests: upsert each fetched contest by contestId,
counting only the upserts that inserted a new document. -/
def contestSyncLoop : Store → List IContest → Store × Nat
  | store, [] => (store, 0)
  | store, c :: rest =>
      if store.contests.any (fun d => d.contestId == c.contestId) then
        contestSyncLoop { store with contests := replaceFirstContest store.contests c } rest
      else
        let r := contestSyncLoop { store with contests := store.contests ++ [c] } rest
        (r.1, r.2 + 1)

/-- syncContests: fetch the non-gym contest list and upsert it; any error
is caught, logged and reported as zero insertions. -/
def syncContests (api : RemoteApi) (store : Store) : List Event × Store × Nat :=
  let r := CodeforcesService.getContests api (some false)
  match r.2 with
  | Except.error _ => (r.1, store, 0)
  | Except.ok contests =>
      let s := contestSyncLoop store contests
      (r.1, s.1, s.2)

/-- True when some stored submission has the given remote submission id,
the dedup test of syncSubmissions. -/
def hasSubmissionId (store : Store) (n : Nat) : Bool :=
  store.submissions.any (fun t => t.submissionId == n)

/-- The Submission document syncSubmissions creates from a fetched
submission. -/
def mkSubmissionDoc (handle : String) (studentId : Nat) (s : ISubmission) : SubmissionDoc :=
  { studentId := studentId
    codeforcesHandle := handle
    submissionId := s.id
    contestId := s.contestId
    creationTimeSeconds := s.creationTimeSeconds
    relativeTimeSeconds := s.relativeTimeSeconds
    problem := s.problem
    author := s.author
    programmingLanguage := s.programmingLanguage
    verdict := s.verdict
    testset := s.testset
    passedTestCount := s.passedTestCount
    timeConsumedMillis := s.timeConsumedMillis
    memoryConsumedBytes := s.memoryConsumedBytes }

/-- Loop body of syncSubmissions: skip a fetched submission when a stored
one already has its submission id, otherwise create it and count it. -/
def submissionSyncLoop (handle : String) (studentId : Nat) :
    Store → List ISubmission → Store × Nat
  | store, [] => (store, 0)
  | store, s :: rest =>
      if hasSubmissionId store s.id then
        submissionSyncLoop handle studentId store rest
      else
        let r := submissionSyncLoop handle studentId
          { store with submissions := store.submissions ++ [mkSubmissionDoc handle studentId s] }
          rest
        (r.1, r.2 + 1)

/-- syncSubmissions: fetch all submissions of the handle and insert the
ones whose submission id is not stored yet, returning the count added. -/
def syncSubmissions (api : RemoteApi) (handle : String) (studentId : Nat) (store : Store) :
    List Event × Except String (Store × Nat) :=
  let r := CodeforcesService.getUserSubmissions api handle none none
  match r.2 with
  | Except.error e => (r.1, Except.error e)
  | Except.ok subs => (r.1, Except.ok (submissionSyncLoop handle studentId store subs))

/-- True when a stored rating change has the given codeforcesHandle and
contestId, the dedup test of syncRatingChanges. -/
def hasRatingChange (store : Store) (handle : String) (contestId : Nat) : Bool :=
  store.ratingChanges.any (fun t => t.codeforcesHandle == handle && t.contestId == contestId)

/-- The RatingChange document syncRatingChanges creates from a fetched
rating change. -/
def mkRatingChangeDoc (handle : String) (studentId : Nat)
    (rc : CodeforcesRatingChange) : RatingChangeDoc :=
  { studentId := studentId
    codeforcesHandle := handle
    contestId := rc.contestId
    contestName := rc.contestName
    handle := rc.handle
    rank := rc.rank
    ratingUpdateTimeSeconds := rc.ratingUpdateTimeSeconds
    oldRating := rc.oldRating
    newRating := rc.newRating }

/-- Loop body of syncRatingChanges: skip a change when a stored record has
the same (codeforcesHandle, contestId) pair, otherwise create it. -/
def ratingChangeSyncLoop (handle : String) (studentId : Nat) :
    Store → List CodeforcesRatingChange → Store × Nat
  | store, [] => (store, 0)
  | store, rc :: rest =>
      if hasRatingChange store handle rc.contestId then
        ratingChangeSyncLoop handle studentId store rest
      else
        let r := ratingChangeSyncLoop handle studentId
          { store with ratingChanges := store.ratingChanges ++ [mkRatingChangeDoc handle studentId rc] }
          rest
        (r.1, r.2 + 1)

/-- syncRatingChanges: insert the fetched rating changes that are not yet
stored for this handle, returning the count added. -/
def syncRatingChanges (handle : String) (studentId : Nat)
    (changes : List CodeforcesRatingChange) (store : Store) : Store × Nat :=
  ratingChangeSyncLoop handle studentId store changes

/-- Mongo updateOne semantics on the student collection: apply `f` to the
first student whose id matches. -/
def updateFirstStudent : List StudentDoc → Nat → (StudentDoc → StudentDoc) → List StudentDoc
  | [], _, _ => []
  | s :: rest, sid, f =>
      if s.id == sid then f s :: rest
      else s :: updateFirstStudent rest sid f

/-- Field update built by updateStudentRatings: each rating field is set
only when the fetched profile defines it. -/
def applyRatingUpdate (user : CodeforcesUser) (s : StudentDoc) : StudentDoc :=
  { s with
    currentRating := match user.rating with | some r => some r | none => s.currentRating
    maxRating := match user.maxRating with | some m => some m | none => s.maxRating }

/-- updateStudentRatings: updateOne on the student with the rating fields
present in the fetched profile (a no-op when both are absent). -/
def updateStudentRatings (store : Store) (studentId : Nat) (user : CodeforcesUser) : Store :=
  { store with students := updateFirstStudent store.students studentId (applyRatingUpdate user) }

/-- JavaScript truthiness of an optional numeric field: null, undefined
and 0 are falsy. -/
def truthy : Option Int → Bool
  | none => false
  | some v => v != 0

/-- Pre-save middleware of the Student schema (models/Student.ts): when
currentRating is truthy and maxRating is falsy or smaller than
currentRating, set maxRating to currentRating. -/
def preSaveHook (s : StudentDoc) : StudentDoc :=
  if truthy s.currentRating &&
      (!(truthy s.maxRating) || s.currentRating.getD 0 > s.maxRating.getD 0)
  then { s with maxRating := s.currentRating }
  else s

/-- The student.save() call at the end of syncHandle.  Mongoose persists
the modified paths of the in-memory document after running the pre-save
hook; at this call site the document was loaded before the sync, so the
modified paths are lastDataUpdate (just assigned the sync time) and
maxRating when the hook changed it from the pre-sync value.  Fields not
modified in memory (in particular currentRating, just written to the
store by updateStudentRatings) keep their stored value. -/
def saveStudentDoc (store : Store) (doc : StudentDoc) (now : Int) : Store :=
  let d1 := { doc with lastDataUpdate := some now }
  let d2 := preSaveHook d1
  let hookChanged := d2.maxRating != d1.maxRating
  let persist := fun (s : StudentDoc) =>
    { s with
      lastDataUpdate := some now
      maxRating := if hookChanged then d2.maxRating else s.maxRating }
  { store with students := updateFirstStudent store.students doc.id persist }

/-- syncHandle: the whole per-user sync.  Looks the student up (unless a
document is injected by the caller), validates the handle, fetches the
user stats, syncs contests, submissions and rating changes, updates the
rating fields and stamps lastDataUpdate via student.save(); any thrown
error is caught and reported as a failed SyncResult carrying its
message. -/
def syncHandle (api : RemoteApi) (now : Int) (handle : String)
    (injected : Option StudentDoc) (store : Store) : List Event × Store × SyncResult :=
  let found := match injected with
    | some s => some s
    | none => store.students.find? (fun s => s.codeforcesHandle == handle)
  match found with
  | none =>
      ([], store,
        { success := false, message := "No student with handle " ++ handle,
          data := none, error := none })
  | some student =>
      let v := CodeforcesService.validateHandle api handle
      if !v.2 then
        (v.1, store,
          { success := false, message := "Invalid handle " ++ quoted handle,
            data := none, error := none })
      else
        let stats := CodeforcesService.getUserStats api handle
        match stats.2 with
        | Except.error msg =>
            (v.1 ++ stats.1, store,
              { success := false, message := "Sync failed for " ++ quoted handle,
                data := none, error := some msg })
        | Except.ok us =>
            let c := syncContests api store
            let sb := syncSubmissions api handle student.id c.2.1
            match sb.2 with
            | Except.error msg =>
                (v.1 ++ stats.1 ++ c.1 ++ sb.1, c.2.1,
                  { success := false, message := "Sync failed for " ++ quoted handle,
                    data := none, error := some msg })
            | Except.ok sres =>
                let rc := syncRatingChanges handle student.id us.ratingChanges sres.1
                let store4 := updateStudentRatings rc.1 student.id us.user
                let store5 := saveStudentDoc store4 student now
                (v.1 ++ stats.1 ++ c.1 ++ sb.1, store5,
                  { success := true,
                    message := "Synced " ++ quoted handle ++ " successfully",
                    data := some
                      { submissionsAdded := sres.2
                        ratingChangesAdded := rc.2
                        contestsAdded := c.2.2
                        currentRating := us.user.rating
                        maxRating := us.user.maxRating }
                    error := none })

/-- syncStudentData: look the student up by id; when absent return the
"Student not found" failure, otherwise sync the handle with the loaded
document injected. -/
def syncStudentData (api : RemoteApi) (now : Int) (studentId : Nat) (store : Store) :
    List Event × Store × SyncResult :=
  match store.students.find? (fun s => s.id == studentId) with
  | none =>
      ([], store,
        { success := false, message := "Student not found", data := none, error := none })
  | some student => syncHandle api now student.codeforcesHandle (some student) store

/-- Accumulator of the syncAllStudents loop. -/
structure BatchAcc where
  events : List Event
  store : Store
  results : List StudentSyncEntry
  successfulSyncs : Nat
  failedSyncs : Nat

/-- Loop body of syncAllStudents: sync each student of the snapshot in
order, record a per-student result, count successes and failures, and
sleep STUDENT_DELAY_MS after each student. -/
def syncAllLoop (api : RemoteApi) (now : Int) : Store → List StudentDoc → BatchAcc
  | store, [] =>
      { events := [], store := store, results := [],
        successfulSyncs := 0, failedSyncs := 0 }
  | store, student :: rest =>
      let r := syncHandle api now student.codeforcesHandle (some student) store
      let acc := syncAllLoop api now r.2.1 rest
      { events := r.1 ++ [Event.delay STUDENT_DELAY_MS] ++ acc.events
        store := acc.store
        results := { studentId := student.id, handle := student.codeforcesHandle,
                     result := r.2.2 } :: acc.results
        successfulSyncs := (if r.2.2.success then 1 else 0) + acc.successfulSyncs
        failedSyncs := (if r.2.2.success then 0 else 1) + acc.failedSyncs }

/-- syncAllStudents: snapshot the student collection, sync every student
in order and return the global statistics. -/
def syncAllStudents (api : RemoteApi) (now : Int) (store : Store) :
    List Event × Store × GlobalSyncStats :=
  let students := store.students
  let acc := syncAllLoop api now store students
  (acc.events, acc.store,
    { totalStudents := students.length
      successfulSyncs := acc.successfulSyncs
      failedSyncs := acc.failedSyncs
      results := acc.results })

end DataSyncService

/-- lastResult record of CronJobStatus (cronJobService.ts). -/
structure CronLastResult where
  success : Bool
  studentsProcessed : Nat
  errors : Nat
  deriving DecidableEq

/-- CronJobStatus (cronJobService.ts), restricted to the fields the sync
run reads and writes; the schedule bookkeeping (schedule string, enabled
flag, nextRun estimate of calculateNextRun) is presentation state that no
modelled logic depends on. -/
structure CronJobStatus where
  isRunning : Bool
  lastRun : Option Int
  lastResult : Option CronLastResult
  deriving DecidableEq

namespace CronJobService

/-- getStudentsNeedingUpdate: the students whose lastDataUpdate is null or
strictly older than now minus the threshold in hours. -/
def getStudentsNeedingUpdate (now : Int) (thresholdHours : Int) (store : Store) :
    List StudentDoc :=
  let thresholdTime := now - thresholdHours * 60 * 60 * 1000
  store.students.filter (fun s =>
    match s.lastDataUpdate with
    | none => true
    | some t => t < thresholdTime)

/-- Accumulator of the per-student loop of executeSync. -/
structure CronAcc where
  events : List Event
  store : Store
  processed : Nat
  errors : Nat

/-- Per-student loop of executeSync: sync each selected student through
DataSyncService.syncStudentData, count successes and failures, and sleep
1000 ms after each student.  The per-student try/catch of the source is
vacuous here because syncStudentData catches every error itself. -/
def cronSyncLoop (api : RemoteApi) (now : Int) : Store → List StudentDoc → CronAcc
  | store, [] => { events := [], store := store, processed := 0, errors := 0 }
  | store, student :: rest =>
      let r := DataSyncService.syncStudentData api now student.id store
      let acc := cronSyncLoop api now r.2.1 rest
      { events := r.1 ++ [Event.delay 1000] ++ acc.events
        store := acc.store
        processed := (if r.2.2.success then 1 else 0) + acc.processed
        errors := (if r.2.2.success then 0 else 1) + acc.errors }

/-- executeSync: skip entirely when a run is already in progress;
otherwise mark the run started, select every student when forceAll is set
and only the stale ones otherwise, sync them, and in a finally block clear
isRunning whatever happened.  `dbFailure` injects a throw of the student
query inside the try block, which the catch turns into a failed
lastResult. -/
def executeSync (api : RemoteApi) (now : Int) (thresholdHours : Int) (forceAll : Bool)
    (dbFailure : Option String) (status : CronJobStatus) (store : Store) :
    List Event × Store × CronJobStatus :=
  if status.isRunning then ([], store, status)
  else
    let st1 : CronJobStatus := { status with isRunning := true, lastRun := some now }
    match dbFailure with
    | some _ =>
        ([], store,
          { st1 with
            isRunning := false
            lastResult := some { success := false, studentsProcessed := 0, errors := 1 } })
    | none =>
        let selected := if forceAll then store.students
                        else getStudentsNeedingUpdate now thresholdHours store
        if selected.isEmpty then
          ([], store,
            { st1 with
              isRunning := false
              lastResult := some { success := true, studentsProcessed := 0, errors := 0 } })
        else
          let acc := cronSyncLoop api now store selected
          (acc.events, acc.store,
            { st1 with
              isRunning := false
              lastResult := some
                { success := acc.errors == 0
                  studentsProcessed := acc.processed
                  errors := acc.errors } })

/-- The callback startJob installs in the node-cron schedule:
executeSync(true), i.e. a forced run over every student. -/
def scheduledTrigger (api : RemoteApi) (now : Int) (thresholdHours : Int)
    (dbFailure : Option String) (status : CronJobStatus) (store : Store) :
    List Event × Store × CronJobStatus :=
  executeSync api now thresholdHours true dbFailure status store

/-- triggerManualSync: executeSync(false), i.e. a run restricted by the
staleness threshold. -/
def triggerManualSync (api : RemoteApi) (now : Int) (thresholdHours : Int)
    (dbFailure : Option String) (status : CronJobStatus) (store : Store) :
    List Event × Store × CronJobStatus :=
  executeSync api now thresholdHours false dbFailure status store

end CronJobService

/-- True when the trace does not begin with an API call (so the first
request, if any, has something before it). -/
def headNotCall : List Event → Bool
  | Event.apiCall _ :: _ => false
  | _ => true

/-- True when every API call that follows another event follows exactly a
200 ms delay. -/
def pairsDelayed : List Event → Bool
  | a :: b :: rest =>
      (match b with
       | Event.apiCall _ => decide (a = Event.delay 200)
       | _ => true) && pairsDelayed (b :: rest)
  | _ => true

/-- True when every API call in the trace is immediately preceded by a
200 ms delay event. -/
def apiCallsDelayed (tr : List Event) : Bool := headNotCall tr && pairsDelayed tr

/-- Traces producible by the sync engine: a sequence of makeRequest blocks
(a 200 ms delay followed by one API call) and 1000 ms between-student
delays. -/
inductive GoodTrace : List Event → Prop where
  | nil : GoodTrace []
  | block (e : String) (rest : List Event) :
      GoodTrace rest → GoodTrace (Event.delay 200 :: Event.apiCall e :: rest)
  | sep (rest : List Event) :
      GoodTrace rest → GoodTrace (Event.delay 1000 :: rest)

/-- Example remote profile used in the concrete scenarios below. -/
def aliceUser : CodeforcesUser :=
  { handle := "alice", rating := some 1600, maxRating := some 1700 }

/-- Example stored student.  The rating fields have the shape an earlier
sync against a profile without a maxRating field leaves behind:
currentRating set, maxRating still null. -/
def alice : StudentDoc :=
  { id := 1, name := "Alice", email := "alice@example.com",
    phoneNumber := "5551234", codeforcesHandle := "alice",
    currentRating := some 2000, maxRating := none, lastDataUpdate := none,
    emailNotificationsEnabled := true, reminderEmailCount := 0 }

/-- A store holding only the example student. -/
def store1 : Store :=
  { students := [alice], submissions := [], ratingChanges := [], contests := [] }

/-- A store with no documents at all. -/
def emptyStore : Store :=
  { students := [], submissions := [], ratingChanges := [], contests := [] }

/-- The example student right after a data refresh at time 1000000. -/
def freshAlice : StudentDoc := { alice with lastDataUpdate := some 1000000 }

/-- A store holding only the freshly synced student. -/
def storeFresh : Store := { store1 with students := [freshAlice] }

/-- The example student with a zero current rating and no max rating. -/
def zeroStudent : StudentDoc :=
  { alice with currentRating := some 0, maxRating := none }

/-- Remote oracle whose endpoints all succeed with the example data. -/
def apiAllOk : RemoteApi :=
  { userInfo := fun _ => Except.ok [aliceUser]
    userRating := fun _ => Except.ok []
    userStatus := fun _ _ _ => Except.ok []
    contestList := fun _ => Except.ok [] }

/-- Remote oracle whose contest-list endpoint fails while every other
endpoint succeeds. -/
def apiContestDown : RemoteApi :=
  { apiAllOk with
    contestList := fun _ => Except.error "Codeforces API is temporarily unavailable" }

/-- Remote oracle whose submissions endpoint fails while every other
endpoint succeeds. -/
def apiStatusDown : RemoteApi :=
  { apiAllOk with
    userStatus := fun _ _ _ => Except.error "Codeforces API is temporarily unavailable" }

/-- Remote oracle whose user-info endpoint fails. -/
def apiUserDown : RemoteApi :=
  { apiAllOk with
    userInfo := fun _ => Except.error "Cannot connect to Codeforces API - check your internet connection" }

/-- An example remote submission of the example user. -/
def subA : ISubmission :=
  { id := 10, contestId := some 100, creationTimeSeconds := 1,
    relativeTimeSeconds := 2,
    problem := { contestId := some 100, index := "A", name := "P",
                 type := "PROGRAMMING", rating := some 800, tags := ["math"] },
    author := { contestId := some 100, members := [{ handle := "alice" }],
                participantType := "CONTESTANT", ghost := false,
                startTimeSeconds := some 0 },
    programmingLanguage := "GNU C++17", verdict := "OK", testset := "TESTS",
    passedTestCount := 5, timeConsumedMillis := 100, memoryConsumedBytes := 1000 }

/-- An example remote rating change of the example user. -/
def rcA : CodeforcesRatingChange :=
  { contestId := 100, contestName := "Round 1", handle := "alice", rank := 3,
    ratingUpdateTimeSeconds := 5, oldRating := 1500, newRating := 1600 }

/-- Remote oracle serving the example submission and rating change. -/
def apiWithData : RemoteApi :=
  { userInfo := fun _ => Except.ok [aliceUser]
    userRating := fun _ => Except.ok [rcA]
    userStatus := fun _ _ _ => Except.ok [subA]
    contestList := fun _ => Except.ok [] }

/-- A cron status with no run in progress. -/
def idleStatus : CronJobStatus :=
  { isRunning := false, lastRun := none, lastResult := none }

/-- A cron status while a run is in progress. -/
def runningStatus : CronJobStatus :=
  { isRunning := true, lastRun := none, lastResult := none }


lemma GoodTrace.append {a b : List Event} (ha : GoodTrace a) (hb : GoodTrace b) :
    GoodTrace (a ++ b) := by
  induction ha with
  | nil => simpa using hb
  | block e rest _ ih => exact GoodTrace.block e _ ih
  | sep rest _ ih => exact GoodTrace.sep _ ih

lemma GoodTrace.headNotCall_eq {tr : List Event} (h : GoodTrace tr) :
    headNotCall tr = true := by
  cases h <;> rfl

lemma GoodTrace.pairsDelayed_eq {tr : List Event} (h : GoodTrace tr) :
    pairsDelayed tr = true := by
  induction h with
  | nil => rfl
  | block e rest h ih =>
      simp only [pairsDelayed, Bool.and_eq_true, decide_eq_true_eq]
      refine ⟨by trivial, ?_⟩
      cases h with
      | nil => rfl
      | block e' rest' h' =>
          simpa [pairsDelayed] using ih
      | sep rest' h' =>
          simpa [pairsDelayed] using ih
  | sep rest h ih =>
      cases h with
      | nil => rfl
      | block e' rest' h' =>
          simpa [pairsDelayed] using ih
      | sep rest' h' =>
          simpa [pairsDelayed] using ih

lemma GoodTrace.apiCallsDelayed_eq {tr : List Event} (h : GoodTrace tr) :
    apiCallsDelayed tr = true := by
  simp [apiCallsDelayed, h.headNotCall_eq, h.pairsDelayed_eq]

lemma goodTrace_makeRequestEvents (e : String) :
    GoodTrace (CodeforcesService.makeRequestEvents e) :=
  GoodTrace.block e [] GoodTrace.nil

lemma goodTrace_getUserInfo (api : RemoteApi) (h : String) :
    GoodTrace (CodeforcesService.getUserInfo api h).1 :=
  goodTrace_makeRequestEvents _

lemma goodTrace_getUserRatingChanges (api : RemoteApi) (h : String) :
    GoodTrace (CodeforcesService.getUserRatingChanges api h).1 :=
  goodTrace_makeRequestEvents _

lemma goodTrace_getUserSubmissions (api : RemoteApi) (h : String) (fro cnt : Option Nat) :
    GoodTrace (CodeforcesService.getUserSubmissions api h fro cnt).1 :=
  goodTrace_makeRequestEvents _

lemma goodTrace_getContests (api : RemoteApi) (gym : Option Bool) :
    GoodTrace (CodeforcesService.getContests api gym).1 :=
  goodTrace_makeRequestEvents _

lemma goodTrace_validateHandle (api : RemoteApi) (h : String) :
    GoodTrace (CodeforcesService.validateHandle api h).1 :=
  goodTrace_makeRequestEvents _

lemma goodTrace_getUserStats (api : RemoteApi) (h : String) :
    GoodTrace (CodeforcesService.getUserStats api h).1 := by
  simp only [CodeforcesService.getUserStats]
  split
  · exact (goodTrace_getUserInfo api h).append
      ((goodTrace_getUserRatingChanges api h).append
        (goodTrace_getUserSubmissions api h (some 1) (some 1)))
  · exact ((goodTrace_getUserInfo api h).append
      ((goodTrace_getUserRatingChanges api h).append
        (goodTrace_getUserSubmissions api h (some 1) (some 1)))).append
      (goodTrace_getUserSubmissions api h none none)

lemma syncContests_trace (api : RemoteApi) (store : Store) :
    (DataSyncService.syncContests api store).1
      = (CodeforcesService.getContests api (some false)).1 := by
  unfold DataSyncService.syncContests
  cases hc : (CodeforcesService.getContests api (some false)).2 <;> simp [hc]

lemma syncSubmissions_trace (api : RemoteApi) (handle : String) (sid : Nat) (store : Store) :
    (DataSyncService.syncSubmissions api handle sid store).1
      = (CodeforcesService.getUserSubmissions api handle none none).1 := by
  unfold DataSyncService.syncSubmissions
  cases hc : (CodeforcesService.getUserSubmissions api handle none none).2 <;> simp [hc]

lemma goodTrace_syncContests (api : RemoteApi) (store : Store) :
    GoodTrace (DataSyncService.syncContests api store).1 := by
  rw [syncContests_trace]; exact goodTrace_getContests api (some false)

lemma goodTrace_syncSubmissions (api : RemoteApi) (handle : String) (sid : Nat) (store : Store) :
    GoodTrace (DataSyncService.syncSubmissions api handle sid store).1 := by
  rw [syncSubmissions_trace]; exact goodTrace_getUserSubmissions api handle none none

lemma goodTrace_syncHandle (api : RemoteApi) (now : Int) (handle : String)
    (inj : Option StudentDoc) (store : Store) :
    GoodTrace (DataSyncService.syncHandle api now handle inj store).1 := by
  simp only [DataSyncService.syncHandle]
  split
  · exact GoodTrace.nil
  · split
    · exact goodTrace_validateHandle api handle
    · split
      · exact (goodTrace_validateHandle api handle).append (goodTrace_getUserStats api handle)
      · split
        · exact (((goodTrace_validateHandle api handle).append
            (goodTrace_getUserStats api handle)).append
            (goodTrace_syncContests api store)).append
            (goodTrace_syncSubmissions api handle _ _)
        · exact (((goodTrace_validateHandle api handle).append
            (goodTrace_getUserStats api handle)).append
            (goodTrace_syncContests api store)).append
            (goodTrace_syncSubmissions api handle _ _)

lemma goodTrace_syncStudentData (api : RemoteApi) (now : Int) (sid : Nat) (store : Store) :
    GoodTrace (DataSyncService.syncStudentData api now sid store).1 := by
  simp only [DataSyncService.syncStudentData]
  split
  · exact GoodTrace.nil
  · exact goodTrace_syncHandle api now _ _ store

lemma goodTrace_syncAllLoop (api : RemoteApi) (now : Int) :
    ∀ (students : List StudentDoc) (store : Store),
      GoodTrace (DataSyncService.syncAllLoop api now store students).events := by
  intro students
  induction students with
  | nil => intro store; exact GoodTrace.nil
  | cons s rest ih =>
      intro store
      simp only [DataSyncService.syncAllLoop, DataSyncService.STUDENT_DELAY_MS,
        List.append_assoc, List.singleton_append]
      exact (goodTrace_syncHandle api now _ _ store).append
        (GoodTrace.sep _ (ih _))

lemma goodTrace_syncAllStudents (api : RemoteApi) (now : Int) (store : Store) :
    GoodTrace (DataSyncService.syncAllStudents api now store).1 :=
  goodTrace_syncAllLoop api now store.students store

lemma count1000_makeRequestEvents (e : String) :
    (CodeforcesService.makeRequestEvents e).count (Event.delay 1000) = 0 := by
  simp [CodeforcesService.makeRequestEvents, CodeforcesService.REQUEST_DELAY,
    List.count_eq_zero]

lemma count1000_getUserStats (api : RemoteApi) (h : String) :
    (CodeforcesService.getUserStats api h).1.count (Event.delay 1000) = 0 := by
  simp only [CodeforcesService.getUserStats]
  split <;>
    simp [List.count_append, count1000_makeRequestEvents,
      CodeforcesService.getUserInfo, CodeforcesService.getUserRatingChanges,
      CodeforcesService.getUserSubmissions]

lemma count1000_syncHandle (api : RemoteApi) (now : Int) (handle : String)
    (inj : Option StudentDoc) (store : Store) :
    (DataSyncService.syncHandle api now handle inj store).1.count (Event.delay 1000) = 0 := by
  simp only [DataSyncService.syncHandle]
  split
  · rfl
  · split
    · simp [CodeforcesService.validateHandle, CodeforcesService.getUserInfo,
        count1000_makeRequestEvents]
    · split
      · simp [List.count_append, count1000_makeRequestEvents, count1000_getUserStats,
          CodeforcesService.validateHandle, CodeforcesService.getUserInfo]
      · split <;>
          simp [List.count_append, count1000_makeRequestEvents, count1000_getUserStats,
            syncContests_trace, syncSubmissions_trace,
            CodeforcesService.validateHandle, CodeforcesService.getUserInfo,
            CodeforcesService.getContests, CodeforcesService.getUserSubmissions]

lemma count1000_syncAllLoop (api : RemoteApi) (now : Int) :
    ∀ (students : List StudentDoc) (store : Store),
      (DataSyncService.syncAllLoop api now store students).events.count (Event.delay 1000)
        = students.length := by
  intro students
  induction students with
  | nil => intro store; rfl
  | cons s rest ih =>
      intro store
      simp [DataSyncService.syncAllLoop, DataSyncService.STUDENT_DELAY_MS,
        List.count_append, count1000_syncHandle, ih, Nat.add_comm]

lemma syncAllLoop_results (api : RemoteApi) (now : Int) :
    ∀ (students : List StudentDoc) (store : Store),
      (DataSyncService.syncAllLoop api now store students).results.length = students.length
      ∧ (DataSyncService.syncAllLoop api now store students).successfulSyncs
          + (DataSyncService.syncAllLoop api now store students).failedSyncs
          = students.length
      ∧ (DataSyncService.syncAllLoop api now store students).results.map
          (fun e => e.handle) = students.map (fun s => s.codeforcesHandle)
      ∧ (DataSyncService.syncAllLoop api now store students).results.map
          (fun e => e.studentId) = students.map (fun s => s.id) := by
  intro students
  induction students with
  | nil => intro store; refine ⟨rfl, rfl, rfl, rfl⟩
  | cons s rest ih =>
      intro store
      have h := ih (DataSyncService.syncHandle api now s.codeforcesHandle (some s) store).2.1
      simp only [DataSyncService.syncAllLoop, List.length_cons, List.map_cons]
      refine ⟨by simp [h.1], ?_, by simp [h.2.2.1], by simp [h.2.2.2]⟩
      have hsum := h.2.1
      cases hb : (DataSyncService.syncHandle api now s.codeforcesHandle (some s) store).2.2.success <;>
        simp [hb] <;> omega

lemma hasSubmissionId_append (store : Store) (d : SubmissionDoc) (n : Nat) :
    DataSyncService.hasSubmissionId
        { store with submissions := store.submissions ++ [d] } n
      = (DataSyncService.hasSubmissionId store n || (d.submissionId == n)) := by
  simp [DataSyncService.hasSubmissionId, List.any_append]

lemma hasSubmissionId_submissionSyncLoop (handle : String) (sid : Nat) :
    ∀ (subs : List ISubmission) (store : Store) (n : Nat),
      DataSyncService.hasSubmissionId
          (DataSyncService.submissionSyncLoop handle sid store subs).1 n = true
        ↔ DataSyncService.hasSubmissionId store n = true ∨ ∃ s ∈ subs, s.id = n := by
  intro subs
  induction subs with
  | nil => intro store n; simp [DataSyncService.submissionSyncLoop]
  | cons s rest ih =>
      intro store n
      cases h1 : DataSyncService.hasSubmissionId store s.id with
      | true =>
          have hs : s.id = n → DataSyncService.hasSubmissionId store n = true :=
            fun e => e ▸ h1
          simp only [DataSyncService.submissionSyncLoop, h1, if_true]
          rw [ih]
          simp only [List.mem_cons]
          constructor
          · rintro (h | ⟨t, ht, rfl⟩)
            · exact Or.inl h
            · exact Or.inr ⟨t, Or.inr ht, rfl⟩
          · rintro (h | ⟨t, ht | ht, rfl⟩)
            · exact Or.inl h
            · exact Or.inl (hs (by rw [ht]))
            · exact Or.inr ⟨t, ht, rfl⟩
      | false =>
          simp only [DataSyncService.submissionSyncLoop, h1, Bool.false_eq_true, if_false]
          rw [ih]
          rw [hasSubmissionId_append]
          simp only [DataSyncService.mkSubmissionDoc, Bool.or_eq_true, beq_iff_eq,
            List.mem_cons]
          constructor
          · rintro ((h | h) | ⟨t, ht, rfl⟩)
            · exact Or.inl h
            · exact Or.inr ⟨s, Or.inl rfl, h⟩
            · exact Or.inr ⟨t, Or.inr ht, rfl⟩
          · rintro (h | ⟨t, ht | ht, rfl⟩)
            · exact Or.inl (Or.inl h)
            · exact Or.inl (Or.inr (by rw [ht]))
            · exact Or.inr ⟨t, ht, rfl⟩

lemma length_submissionSyncLoop (handle : String) (sid : Nat) :
    ∀ (subs : List ISubmission) (store : Store),
      (DataSyncService.submissionSyncLoop handle sid store subs).1.submissions.length
        = store.submissions.length
          + (DataSyncService.submissionSyncLoop handle sid store subs).2 := by
  intro subs
  induction subs with
  | nil => intro store; simp [DataSyncService.submissionSyncLoop]
  | cons s rest ih =>
      intro store
      cases h1 : DataSyncService.hasSubmissionId store s.id with
      | true => simpa [DataSyncService.submissionSyncLoop, h1] using ih store
      | false =>
          have h := ih { store with submissions :=
            store.submissions ++ [DataSyncService.mkSubmissionDoc handle sid s] }
          simp only [DataSyncService.submissionSyncLoop, h1, Bool.false_eq_true, if_false]
          simp only [List.length_append, List.length_cons, List.length_nil] at h
          omega

lemma submissionSyncLoop_preserves (handle : String) (sid : Nat) :
    ∀ (subs : List ISubmission) (store : Store),
      (DataSyncService.submissionSyncLoop handle sid store subs).1.students = store.students
      ∧ (DataSyncService.submissionSyncLoop handle sid store subs).1.ratingChanges
          = store.ratingChanges
      ∧ (DataSyncService.submissionSyncLoop handle sid store subs).1.contests
          = store.contests := by
  intro subs
  induction subs with
  | nil => intro store; exact ⟨rfl, rfl, rfl⟩
  | cons s rest ih =>
      intro store
      cases h1 : DataSyncService.hasSubmissionId store s.id with
      | true => simpa [DataSyncService.submissionSyncLoop, h1] using ih store
      | false =>
          simpa [DataSyncService.submissionSyncLoop, h1] using
            ih { store with submissions :=
              store.submissions ++ [DataSyncService.mkSubmissionDoc handle sid s] }

lemma count_submissionSyncLoop (handle : String) (sid : Nat) :
    ∀ (subs : List ISubmission) (store : Store),
      (subs.map ISubmission.id).Nodup →
      (DataSyncService.submissionSyncLoop handle sid store subs).2
        = (subs.filter (fun s => !DataSyncService.hasSubmissionId store s.id)).length := by
  intro subs
  induction subs with
  | nil => intro store _; rfl
  | cons s rest ih =>
      intro store hnd
      rw [List.map_cons, List.nodup_cons] at hnd
      obtain ⟨hnotin, hrest⟩ := hnd
      cases h1 : DataSyncService.hasSubmissionId store s.id with
      | true =>
          simpa [DataSyncService.submissionSyncLoop, List.filter_cons, h1] using
            ih store hrest
      | false =>
          have heq : rest.filter (fun t => !DataSyncService.hasSubmissionId
              { store with submissions :=
                store.submissions ++ [DataSyncService.mkSubmissionDoc handle sid s] } t.id)
              = rest.filter (fun t => !DataSyncService.hasSubmissionId store t.id) := by
            apply List.filter_congr
            intro t ht
            rw [hasSubmissionId_append]
            have : (s.id == t.id) = false := by
              have : s.id ≠ t.id := by
                intro e
                exact hnotin (by rw [e]; exact List.mem_map_of_mem ISubmission.id ht)
              simpa using this
            simp [DataSyncService.mkSubmissionDoc, this]
          have h := ih { store with submissions :=
            store.submissions ++ [DataSyncService.mkSubmissionDoc handle sid s] } hrest
          rw [heq] at h
          simp [DataSyncService.submissionSyncLoop, List.filter_cons, h1, h]

lemma submissionSyncLoop_skip_all (handle : String) (sid : Nat) :
    ∀ (subs : List ISubmission) (store : Store),
      (∀ s ∈ subs, DataSyncService.hasSubmissionId store s.id = true) →
      DataSyncService.submissionSyncLoop handle sid store subs = (store, 0) := by
  intro subs
  induction subs with
  | nil => intro store _; rfl
  | cons s rest ih =>
      intro store hall
      have h1 := hall s (List.mem_cons_self s rest)
      simp only [DataSyncService.submissionSyncLoop, h1, if_true]
      exact ih store (fun t ht => hall t (List.mem_cons_of_mem s ht))

lemma hasRatingChange_append (store : Store) (d : RatingChangeDoc) (h : String) (c : Nat) :
    DataSyncService.hasRatingChange
        { store with ratingChanges := store.ratingChanges ++ [d] } h c
      = (DataSyncService.hasRatingChange store h c
          || (d.codeforcesHandle == h && d.contestId == c)) := by
  simp [DataSyncService.hasRatingChange, List.any_append]

lemma hasRatingChange_ratingChangeSyncLoop (handle : String) (sid : Nat) :
    ∀ (changes : List CodeforcesRatingChange) (store : Store) (c : Nat),
      DataSyncService.hasRatingChange
          (DataSyncService.ratingChangeSyncLoop handle sid store changes).1 handle c = true
        ↔ DataSyncService.hasRatingChange store handle c = true
          ∨ ∃ rc ∈ changes, rc.contestId = c := by
  intro changes
  induction changes with
  | nil => intro store c; simp [DataSyncService.ratingChangeSyncLoop]
  | cons rc rest ih =>
      intro store c
      cases h1 : DataSyncService.hasRatingChange store handle rc.contestId with
      | true =>
          have hs : rc.contestId = c →
              DataSyncService.hasRatingChange store handle c = true :=
            fun e => e ▸ h1
          simp only [DataSyncService.ratingChangeSyncLoop, h1, if_true]
          rw [ih]
          simp only [List.mem_cons]
          constructor
          · rintro (h | ⟨t, ht, rfl⟩)
            · exact Or.inl h
            · exact Or.inr ⟨t, Or.inr ht, rfl⟩
          · rintro (h | ⟨t, ht | ht, rfl⟩)
            · exact Or.inl h
            · exact Or.inl (hs (by rw [ht]))
            · exact Or.inr ⟨t, ht, rfl⟩
      | false =>
          simp only [DataSyncService.ratingChangeSyncLoop, h1, Bool.false_eq_true, if_false]
          rw [ih]
          rw [hasRatingChange_append]
          simp only [DataSyncService.mkRatingChangeDoc, Bool.or_eq_true, Bool.and_eq_true,
            beq_iff_eq, beq_self_eq_true, true_and, List.mem_cons]
          constructor
          · rintro ((h | h) | ⟨t, ht, rfl⟩)
            · exact Or.inl h
            · exact Or.inr ⟨rc, Or.inl rfl, h⟩
            · exact Or.inr ⟨t, Or.inr ht, rfl⟩
          · rintro (h | ⟨t, ht | ht, rfl⟩)
            · exact Or.inl (Or.inl h)
            · exact Or.inl (Or.inr (by rw [ht]))
            · exact Or.inr ⟨t, ht, rfl⟩

lemma length_ratingChangeSyncLoop (handle : String) (sid : Nat) :
    ∀ (changes : List CodeforcesRatingChange) (store : Store),
      (DataSyncService.ratingChangeSyncLoop handle sid store changes).1.ratingChanges.length
        = store.ratingChanges.length
          + (DataSyncService.ratingChangeSyncLoop handle sid store changes).2 := by
  intro changes
  induction changes with
  | nil => intro store; simp [DataSyncService.ratingChangeSyncLoop]
  | cons rc rest ih =>
      intro store
      cases h1 : DataSyncService.hasRatingChange store handle rc.contestId with
      | true => simpa [DataSyncService.ratingChangeSyncLoop, h1] using ih store
      | false =>
          have h := ih { store with ratingChanges :=
            store.ratingChanges ++ [DataSyncService.mkRatingChangeDoc handle sid rc] }
          simp only [DataSyncService.ratingChangeSyncLoop, h1, Bool.false_eq_true, if_false]
          simp only [List.length_append, List.length_cons, List.length_nil] at h
          omega

lemma ratingChangeSyncLoop_preserves (handle : String) (sid : Nat) :
    ∀ (changes : List CodeforcesRatingChange) (store : Store),
      (DataSyncService.ratingChangeSyncLoop handle sid store changes).1.students
          = store.students
      ∧ (DataSyncService.ratingChangeSyncLoop handle sid store changes).1.submissions
          = store.submissions
      ∧ (DataSyncService.ratingChangeSyncLoop handle sid store changes).1.contests
          = store.contests := by
  intro changes
  induction changes with
  | nil => intro store; exact ⟨rfl, rfl, rfl⟩
  | cons rc rest ih =>
      intro store
      cases h1 : DataSyncService.hasRatingChange store handle rc.contestId with
      | true => simpa [DataSyncService.ratingChangeSyncLoop, h1] using ih store
      | false =>
          simpa [DataSyncService.ratingChangeSyncLoop, h1] using
            ih { store with ratingChanges :=
              store.ratingChanges ++ [DataSyncService.mkRatingChangeDoc handle sid rc] }

lemma count_ratingChangeSyncLoop (handle : String) (sid : Nat) :
    ∀ (changes : List CodeforcesRatingChange) (store : Store),
      (changes.map CodeforcesRatingChange.contestId).Nodup →
      (DataSyncService.ratingChangeSyncLoop handle sid store changes).2
        = (changes.filter
            (fun rc => !DataSyncService.hasRatingChange store handle rc.contestId)).length := by
  intro changes
  induction changes with
  | nil => intro store _; rfl
  | cons rc rest ih =>
      intro store hnd
      rw [List.map_cons, List.nodup_cons] at hnd
      obtain ⟨hnotin, hrest⟩ := hnd
      cases h1 : DataSyncService.hasRatingChange store handle rc.contestId with
      | true =>
          simpa [DataSyncService.ratingChangeSyncLoop, List.filter_cons, h1] using
            ih store hrest
      | false =>
          have heq : rest.filter (fun t => !DataSyncService.hasRatingChange
              { store with ratingChanges :=
                store.ratingChanges ++ [DataSyncService.mkRatingChangeDoc handle sid rc] }
                handle t.contestId)
              = rest.filter
                  (fun t => !DataSyncService.hasRatingChange store handle t.contestId) := by
            apply List.filter_congr
            intro t ht
            rw [hasRatingChange_append]
            have : (rc.contestId == t.contestId) = false := by
              have : rc.contestId ≠ t.contestId := by
                intro e
                exact hnotin
                  (by rw [e]; exact List.mem_map_of_mem CodeforcesRatingChange.contestId ht)
              simpa using this
            simp [DataSyncService.mkRatingChangeDoc, this]
          have h := ih { store with ratingChanges :=
            store.ratingChanges ++ [DataSyncService.mkRatingChangeDoc handle sid rc] } hrest
          rw [heq] at h
          simp [DataSyncService.ratingChangeSyncLoop, List.filter_cons, h1, h]

lemma ratingChangeSyncLoop_skip_all (handle : String) (sid : Nat) :
    ∀ (changes : List CodeforcesRatingChange) (store : Store),
      (∀ rc ∈ changes,
        DataSyncService.hasRatingChange store handle rc.contestId = true) →
      DataSyncService.ratingChangeSyncLoop handle sid store changes = (store, 0) := by
  intro changes
  induction changes with
  | nil => intro store _; rfl
  | cons rc rest ih =>
      intro store hall
      have h1 := hall rc (List.mem_cons_self rc rest)
      simp only [DataSyncService.ratingChangeSyncLoop, h1, if_true]
      exact ih store (fun t ht => hall t (List.mem_cons_of_mem rc ht))

lemma contestSyncLoop_preserves :
    ∀ (cs : List IContest) (store : Store),
      (DataSyncService.contestSyncLoop store cs).1.students = store.students
      ∧ (DataSyncService.contestSyncLoop store cs).1.submissions = store.submissions
      ∧ (DataSyncService.contestSyncLoop store cs).1.ratingChanges = store.ratingChanges := by
  intro cs
  induction cs with
  | nil => intro store; exact ⟨rfl, rfl, rfl⟩
  | cons c rest ih =>
      intro store
      cases h1 : store.contests.any (fun d => d.contestId == c.contestId) with
      | true =>
          simpa [DataSyncService.contestSyncLoop, h1] using
            ih { store with contests := DataSyncService.replaceFirstContest store.contests c }
      | false =>
          simpa [DataSyncService.contestSyncLoop, h1] using
            ih { store with contests := store.contests ++ [c] }

lemma syncContests_preserves (api : RemoteApi) (store : Store) :
    (DataSyncService.syncContests api store).2.1.students = store.students
    ∧ (DataSyncService.syncContests api store).2.1.submissions = store.submissions
    ∧ (DataSyncService.syncContests api store).2.1.ratingChanges = store.ratingChanges := by
  unfold DataSyncService.syncContests
  cases hc : (CodeforcesService.getContests api (some false)).2 with
  | error e => simp [hc]
  | ok contests => simpa [hc] using contestSyncLoop_preserves contests store

lemma cronSyncLoop_total (api : RemoteApi) (now : Int) :
    ∀ (sel : List StudentDoc) (store : Store),
      (CronJobService.cronSyncLoop api now store sel).processed
        + (CronJobService.cronSyncLoop api now store sel).errors = sel.length := by
  intro sel
  induction sel with
  | nil => intro store; rfl
  | cons s rest ih =>
      intro store
      have h := ih (DataSyncService.syncStudentData api now s.id store).2.1
      simp only [CronJobService.cronSyncLoop]
      cases hb : (DataSyncService.syncStudentData api now s.id store).2.2.success <;>
        simp [hb] <;> omega

lemma find?_updateFirstStudent (sid : Nat) (f : StudentDoc → StudentDoc) :
    ∀ (l : List StudentDoc) (stu : StudentDoc),
      l.find? (fun s => s.id == sid) = some stu →
      (f stu).id = stu.id →
      (DataSyncService.updateFirstStudent l sid f).find? (fun s => s.id == sid)
        = some (f stu) := by
  intro l
  induction l with
  | nil => intro stu h; simp at h
  | cons s rest ih =>
      intro stu hfind hid
      cases h1 : (s.id == sid) with
      | true =>
          rw [@List.find?_cons_of_pos _ (fun t => t.id == sid) s rest h1] at hfind
          injection hfind with hs
          subst hs
          simp only [DataSyncService.updateFirstStudent, h1, if_true]
          exact @List.find?_cons_of_pos _ (fun t => t.id == sid) (f s) _
            (by show ((f s).id == sid) = true; rw [hid]; exact h1)
      | false =>
          rw [@List.find?_cons_of_neg _ (fun t => t.id == sid) s rest (by simp [h1])] at hfind
          simp only [DataSyncService.updateFirstStudent, h1, Bool.false_eq_true, if_false]
          rw [@List.find?_cons_of_neg _ (fun t => t.id == sid) s _ (by simp [h1])]
          exact ih stu hfind hid

/-- C1: syncSubmissions inserts a fetched submission exactly when no stored
submission carries its submission id (afterwards an id is stored iff it was
stored before or fetched; when the fetched ids are distinct the count
equals the number of fetched submissions whose id was not stored), and the
count returned is exactly the number of documents added; syncRatingChanges
behaves the same with the (codeforcesHandle, contestId) pair as key. -/
theorem c1_dedup_insert :
    (∀ (api : RemoteApi) (handle : String) (sid : Nat) (store : Store)
        (subs : List ISubmission),
      api.userStatus handle none none = Except.ok subs →
        (DataSyncService.syncSubmissions api handle sid store).2
            = Except.ok (DataSyncService.submissionSyncLoop handle sid store subs)
        ∧ (∀ n, DataSyncService.hasSubmissionId
              (DataSyncService.submissionSyncLoop handle sid store subs).1 n = true
            ↔ DataSyncService.hasSubmissionId store n = true ∨ ∃ s ∈ subs, s.id = n)
        ∧ (DataSyncService.submissionSyncLoop handle sid store subs).1.submissions.length
            = store.submissions.length
              + (DataSyncService.submissionSyncLoop handle sid store subs).2
        ∧ ((subs.map ISubmission.id).Nodup →
            (DataSyncService.submissionSyncLoop handle sid store subs).2
              = (subs.filter
                  (fun s => !DataSyncService.hasSubmissionId store s.id)).length))
    ∧ (∀ (handle : String) (sid : Nat) (store : Store)
          (changes : List CodeforcesRatingChange),
        (∀ c, DataSyncService.hasRatingChange
              (DataSyncService.syncRatingChanges handle sid changes store).1 handle c = true
            ↔ DataSyncService.hasRatingChange store handle c = true
              ∨ ∃ rc ∈ changes, rc.contestId = c)
        ∧ (DataSyncService.syncRatingChanges handle sid changes store).1.ratingChanges.length
            = store.ratingChanges.length
              + (DataSyncService.syncRatingChanges handle sid changes store).2
        ∧ ((changes.map CodeforcesRatingChange.contestId).Nodup →
            (DataSyncService.syncRatingChanges handle sid changes store).2
              = (changes.filter
                  (fun rc => !DataSyncService.hasRatingChange
                    store handle rc.contestId)).length)) := by
  constructor
  · intro api handle sid store subs h
    refine ⟨?_, fun n => hasSubmissionId_submissionSyncLoop handle sid subs store n,
      length_submissionSyncLoop handle sid subs store,
      fun hnd => count_submissionSyncLoop handle sid subs store hnd⟩
    simp [DataSyncService.syncSubmissions, CodeforcesService.getUserSubmissions, h]
  · intro handle sid store changes
    exact ⟨fun c => hasRatingChange_ratingChangeSyncLoop handle sid changes store c,
      length_ratingChangeSyncLoop handle sid changes store,
      fun hnd => count_ratingChangeSyncLoop handle sid changes store hnd⟩

/-- Witness for C1 at a concrete oracle, store and record lists. -/
theorem c1_dedup_insert_witness :
    (DataSyncService.syncSubmissions apiWithData "alice" 1 store1).2
      = Except.ok (DataSyncService.submissionSyncLoop "alice" 1 store1 [subA])
    ∧ (DataSyncService.submissionSyncLoop "alice" 1 store1 [subA]).2
      = ([subA].filter (fun s => !DataSyncService.hasSubmissionId store1 s.id)).length
    ∧ (DataSyncService.syncRatingChanges "alice" 1 [rcA] store1).2
      = ([rcA].filter
          (fun rc => !DataSyncService.hasRatingChange store1 "alice" rc.contestId)).length :=
  ⟨(c1_dedup_insert.1 apiWithData "alice" 1 store1 [subA] rfl).1,
   (c1_dedup_insert.1 apiWithData "alice" 1 store1 [subA] rfl).2.2.2 (by simp),
   (c1_dedup_insert.2 "alice" 1 store1 [rcA]).2.2 (by simp)⟩

/-- C3: syncAllStudents processes every student regardless of earlier
failures: it records exactly one result per student, in order, and its
totals satisfy successfulSyncs + failedSyncs = totalStudents = number of
students. -/
theorem c3_batch_isolation (api : RemoteApi) (now : Int) (store : Store) :
    (DataSyncService.syncAllStudents api now store).2.2.totalStudents
        = store.students.length
    ∧ (DataSyncService.syncAllStudents api now store).2.2.results.length
        = store.students.length
    ∧ (DataSyncService.syncAllStudents api now store).2.2.successfulSyncs
        + (DataSyncService.syncAllStudents api now store).2.2.failedSyncs
        = store.students.length
    ∧ (DataSyncService.syncAllStudents api now store).2.2.results.map
        (fun e => e.handle) = store.students.map (fun s => s.codeforcesHandle)
    ∧ (DataSyncService.syncAllStudents api now store).2.2.results.map
        (fun e => e.studentId) = store.students.map (fun s => s.id) := by
  have h := syncAllLoop_results api now store.students store
  exact ⟨rfl, h.1, h.2.1, h.2.2.1, h.2.2.2⟩

/-- C6: a second run of the submission sync over the store produced by the
first run with the same remote data inserts nothing and returns the store
unchanged, and likewise for the rating-change sync. -/
theorem c6_idempotent :
    (∀ (api : RemoteApi) (handle : String) (sid : Nat) (store : Store)
        (subs : List ISubmission),
      api.userStatus handle none none = Except.ok subs →
        DataSyncService.submissionSyncLoop handle sid
            (DataSyncService.submissionSyncLoop handle sid store subs).1 subs
          = ((DataSyncService.submissionSyncLoop handle sid store subs).1, 0)
        ∧ (DataSyncService.syncSubmissions api handle sid
            (DataSyncService.submissionSyncLoop handle sid store subs).1).2
          = Except.ok ((DataSyncService.submissionSyncLoop handle sid store subs).1, 0))
    ∧ (∀ (handle : String) (sid : Nat) (store : Store)
          (changes : List CodeforcesRatingChange),
        DataSyncService.syncRatingChanges handle sid changes
            (DataSyncService.syncRatingChanges handle sid changes store).1
          = ((DataSyncService.syncRatingChanges handle sid changes store).1, 0)) := by
  constructor
  · intro api handle sid store subs h
    have hall : ∀ s ∈ subs, DataSyncService.hasSubmissionId
        (DataSyncService.submissionSyncLoop handle sid store subs).1 s.id = true :=
      fun s hs => (hasSubmissionId_submissionSyncLoop handle sid subs store s.id).mpr
        (Or.inr ⟨s, hs, rfl⟩)
    have h2 := submissionSyncLoop_skip_all handle sid subs _ hall
    refine ⟨h2, ?_⟩
    simp [DataSyncService.syncSubmissions, CodeforcesService.getUserSubmissions, h, h2]
  · intro handle sid store changes
    exact ratingChangeSyncLoop_skip_all handle sid changes _
      (fun rc hrc =>
        (hasRatingChange_ratingChangeSyncLoop handle sid changes store rc.contestId).mpr
          (Or.inr ⟨rc, hrc, rfl⟩))

/-- Witness for C6 at a concrete oracle, store and record lists. -/
theorem c6_idempotent_witness :
    DataSyncService.submissionSyncLoop "alice" 1
        (DataSyncService.submissionSyncLoop "alice" 1 store1 [subA]).1 [subA]
      = ((DataSyncService.submissionSyncLoop "alice" 1 store1 [subA]).1, 0)
    ∧ DataSyncService.syncRatingChanges "alice" 1 [rcA]
        (DataSyncService.syncRatingChanges "alice" 1 [rcA] store1).1
      = ((DataSyncService.syncRatingChanges "alice" 1 [rcA] store1).1, 0) :=
  ⟨(c6_idempotent.1 apiWithData "alice" 1 store1 [subA] rfl).1,
   c6_idempotent.2 "alice" 1 store1 [rcA]⟩

/-- C7: in a batch run every remote API call is immediately preceded by
the fixed 200 ms makeRequest delay, and exactly one 1000 ms delay is
emitted per student while no per-user sync emits one itself. -/
theorem c7_rate_limit_delays (api : RemoteApi) (now : Int) (store : Store) :
    CodeforcesService.REQUEST_DELAY = 200
    ∧ DataSyncService.STUDENT_DELAY_MS = 1000
    ∧ apiCallsDelayed (DataSyncService.syncAllStudents api now store).1 = true
    ∧ (DataSyncService.syncAllStudents api now store).1.count (Event.delay 1000)
        = store.students.length
    ∧ ∀ (handle : String) (inj : Option StudentDoc) (st2 : Store),
        (DataSyncService.syncHandle api now handle inj st2).1.count
          (Event.delay 1000) = 0 := by
  refine ⟨rfl, rfl, (goodTrace_syncAllStudents api now store).apiCallsDelayed_eq, ?_, ?_⟩
  · exact count1000_syncAllLoop api now store.students store
  · intro handle inj st2; exact count1000_syncHandle api now handle inj st2

/-- C8: when no stored student matches the id, syncStudentData returns the
"Student not found" failure, makes no remote call and leaves the store
untouched. -/
theorem c8_student_not_found (api : RemoteApi) (now : Int) (sid : Nat) (store : Store)
    (h : store.students.find? (fun s => s.id == sid) = none) :
    DataSyncService.syncStudentData api now sid store
      = ([], store,
          { success := false, message := "Student not found",
            data := none, error := none }) := by
  unfold DataSyncService.syncStudentData
  rw [h]

/-- Witness for C8 on the empty store. -/
theorem c8_student_not_found_witness :
    DataSyncService.syncStudentData apiAllOk 0 99 emptyStore
      = ([], emptyStore,
          { success := false, message := "Student not found",
            data := none, error := none }) :=
  c8_student_not_found apiAllOk 0 99 emptyStore rfl

/-- C10: a second executeSync entered while a run is in progress returns
at once with nothing changed, and a run that does start always ends with
isRunning cleared, whether the student query throws or not. -/
theorem c10_no_overlap (api : RemoteApi) (now : Int) (thr : Int) (forceAll : Bool)
    (dbF : Option String) (st : CronJobStatus) (store : Store) :
    (st.isRunning = true →
      CronJobService.executeSync api now thr forceAll dbF st store = ([], store, st))
    ∧ (st.isRunning = false →
      (CronJobService.executeSync api now thr forceAll dbF st store).2.2.isRunning
        = false) := by
  constructor
  · intro h; simp [CronJobService.executeSync, h]
  · intro h
    simp only [CronJobService.executeSync, h, Bool.false_eq_true, if_false]
    split
    · rfl
    · split <;> split <;> rfl

/-- Witness for C10: a running status blocks the run, an idle one ends
with isRunning cleared. -/
theorem c10_no_overlap_witness :
    CronJobService.executeSync apiAllOk 0 24 true none runningStatus emptyStore
      = ([], emptyStore, runningStatus)
    ∧ (CronJobService.executeSync apiAllOk 0 24 true none idleStatus
        emptyStore).2.2.isRunning = false :=
  ⟨(c10_no_overlap apiAllOk 0 24 true none runningStatus emptyStore).1 rfl,
   (c10_no_overlap apiAllOk 0 24 true none idleStatus emptyStore).2 rfl⟩

/-- C9 counterexample: a save with currentRating = 0 and maxRating unset.
The pre-save hook treats the zero rating as falsy (JavaScript truthiness)
and does not raise maxRating, so maxRating stays null although
currentRating is set and maxRating is unset. -/
theorem c9_counterexample :
    zeroStudent.currentRating = some 0
    ∧ zeroStudent.maxRating = none
    ∧ DataSyncService.preSaveHook zeroStudent = zeroStudent
    ∧ (DataSyncService.preSaveHook zeroStudent).maxRating = none :=
  ⟨rfl, rfl, rfl, rfl⟩

/-- C9 amended: for every save whose currentRating is a nonzero set value,
the pre-save hook leaves currentRating unchanged and guarantees
maxRating ≥ currentRating, raising maxRating to currentRating whenever
maxRating is unset, zero, or smaller than currentRating. -/
theorem c9_amended (d : StudentDoc) (c : Int)
    (hc : d.currentRating = some c) (hc0 : c ≠ 0) :
    (DataSyncService.preSaveHook d).currentRating = d.currentRating
    ∧ (∃ m, (DataSyncService.preSaveHook d).maxRating = some m ∧ c ≤ m)
    ∧ ((d.maxRating = none ∨ d.maxRating = some 0
        ∨ (∃ m0, d.maxRating = some m0 ∧ m0 < c)) →
      (DataSyncService.preSaveHook d).maxRating = some c) := by
  cases hm : d.maxRating with
  | none =>
      have hcond : (DataSyncService.truthy d.currentRating &&
          (!(DataSyncService.truthy d.maxRating)
            || d.currentRating.getD 0 > d.maxRating.getD 0)) = true := by
        simp [DataSyncService.truthy, hc, hm, hc0]
      unfold DataSyncService.preSaveHook
      rw [if_pos hcond]
      exact ⟨rfl, ⟨c, by simp [hc], le_refl c⟩, fun _ => by simp [hc]⟩
  | some m =>
      by_cases hm0 : m = 0
      · have hcond : (DataSyncService.truthy d.currentRating &&
            (!(DataSyncService.truthy d.maxRating)
              || d.currentRating.getD 0 > d.maxRating.getD 0)) = true := by
          simp [DataSyncService.truthy, hc, hm, hc0, hm0]
        unfold DataSyncService.preSaveHook
        rw [if_pos hcond]
        exact ⟨rfl, ⟨c, by simp [hc], le_refl c⟩, fun _ => by simp [hc]⟩
      · by_cases hcm : m < c
        · have hcond : (DataSyncService.truthy d.currentRating &&
              (!(DataSyncService.truthy d.maxRating)
                || d.currentRating.getD 0 > d.maxRating.getD 0)) = true := by
            simp [DataSyncService.truthy, hc, hm, hc0, hm0]
            omega
          unfold DataSyncService.preSaveHook
          rw [if_pos hcond]
          exact ⟨rfl, ⟨c, by simp [hc], le_refl c⟩, fun _ => by simp [hc]⟩
        · have hcond : (DataSyncService.truthy d.currentRating &&
              (!(DataSyncService.truthy d.maxRating)
                || d.currentRating.getD 0 > d.maxRating.getD 0)) = false := by
            simp [DataSyncService.truthy, hc, hm, hc0, hm0]
            omega
          unfold DataSyncService.preSaveHook
          rw [if_neg (by simp [hcond])]
          refine ⟨rfl, ⟨m, hm, by omega⟩, ?_⟩
          rintro (h | h | ⟨m0, hm0eq, hlt⟩)
          · exact absurd h (by simp)
          · injection h with h2
            exact absurd h2 hm0
          · injection hm0eq with h2
            exact absurd (h2 ▸ hlt) hcm

/-- Witness for the amended C9 with a nonzero current rating exceeding an
unset maxRating. -/
theorem c9_amended_witness :
    (DataSyncService.preSaveHook alice).currentRating = alice.currentRating
    ∧ (∃ m, (DataSyncService.preSaveHook alice).maxRating = some m ∧ 2000 ≤ m)
    ∧ ((alice.maxRating = none ∨ alice.maxRating = some 0
        ∨ (∃ m0, alice.maxRating = some m0 ∧ m0 < 2000)) →
      (DataSyncService.preSaveHook alice).maxRating = some 2000) :=
  c9_amended alice 2000 rfl (by decide)

/-- C2 counterexample: a remote failure of the contest-list fetch during a
per-user sync does not abort it.  The contest-list endpoint fails, the
failing request is issued during the sync, and the sync still reports
success. -/
theorem c2_counterexample :
    apiContestDown.contestList (some false)
        = Except.error "Codeforces API is temporarily unavailable"
    ∧ Event.apiCall "/contest.list?gym=false"
        ∈ (DataSyncService.syncHandle apiContestDown 5 "alice" (some alice) store1).1
    ∧ (DataSyncService.syncHandle apiContestDown 5 "alice" (some alice) store1).2.2.success
        = true :=
  ⟨rfl, by decide, rfl⟩

/-- C2 amended: a remote error of the user-info fetch or of the
submissions fetch aborts the per-user sync with success = false, the
latter carrying the error message and leaving the student, submission and
rating-change collections untouched; remote errors of the contest-list
fetch are swallowed by syncContests (zero insertions) and remote errors of
the rating-history fetch are replaced by an empty history inside
getUserStats, so the sync continues past them. -/
theorem c2_amended :
    (∀ (api : RemoteApi) (now : Int) (handle : String) (inj : Option StudentDoc)
        (store : Store) (e : String),
      api.userInfo handle = Except.error e →
      (DataSyncService.syncHandle api now handle inj store).2.2.success = false)
    ∧ (∀ (api : RemoteApi) (now : Int) (handle : String) (stu : StudentDoc)
          (store : Store) (e : String) (u : CodeforcesUser) (l : List CodeforcesUser),
        api.userInfo handle = Except.ok (u :: l) →
        api.userStatus handle none none = Except.error e →
        hasSubstr e "not found" = false →
        (DataSyncService.syncHandle api now handle (some stu) store).2.2.success = false
        ∧ (DataSyncService.syncHandle api now handle (some stu) store).2.2.error = some e
        ∧ (DataSyncService.syncHandle api now handle (some stu) store).2.1.students
            = store.students
        ∧ (DataSyncService.syncHandle api now handle (some stu) store).2.1.submissions
            = store.submissions
        ∧ (DataSyncService.syncHandle api now handle (some stu) store).2.1.ratingChanges
            = store.ratingChanges) := by
  constructor
  · intro api now handle inj store e h
    have hv : (CodeforcesService.validateHandle api handle).2 = false := by
      simp [CodeforcesService.validateHandle, CodeforcesService.getUserInfo, h]
    simp only [DataSyncService.syncHandle]
    split
    · rfl
    · simp [hv]
  · intro api now handle stu store e u l h1 h2 h3
    have hv : (CodeforcesService.validateHandle api handle).2 = true := by
      simp [CodeforcesService.validateHandle, CodeforcesService.getUserInfo, h1]
    obtain ⟨us, hstat⟩ :
        ∃ us, (CodeforcesService.getUserStats api handle).2 = Except.ok us := by
      simp only [CodeforcesService.getUserStats, CodeforcesService.getUserInfo, h1]
      exact ⟨_, rfl⟩
    have hsb : ∀ st0 : Store, (DataSyncService.syncSubmissions api handle stu.id st0).2
        = Except.error e := by
      intro st0
      simp [DataSyncService.syncSubmissions, CodeforcesService.getUserSubmissions, h2, h3]
    have hp := syncContests_preserves api store
    simp only [DataSyncService.syncHandle, hv, Bool.not_true, Bool.false_eq_true,
      if_false, hstat, hsb]
    exact ⟨by trivial, by trivial, hp.1, hp.2.1, hp.2.2⟩

/-- Witness for the amended C2: a user-info failure and a submissions
failure each abort a concrete sync. -/
theorem c2_amended_witness :
    (DataSyncService.syncHandle apiUserDown 0 "alice" (some alice) store1).2.2.success
        = false
    ∧ ((DataSyncService.syncHandle apiStatusDown 5 "alice" (some alice) store1).2.2.success
          = false
        ∧ (DataSyncService.syncHandle apiStatusDown 5 "alice" (some alice) store1).2.2.error
          = some "Codeforces API is temporarily unavailable"
        ∧ (DataSyncService.syncHandle apiStatusDown 5 "alice" (some alice) store1).2.1.students
          = store1.students
        ∧ (DataSyncService.syncHandle apiStatusDown 5 "alice" (some alice) store1).2.1.submissions
          = store1.submissions
        ∧ (DataSyncService.syncHandle apiStatusDown 5 "alice" (some alice) store1).2.1.ratingChanges
          = store1.ratingChanges) :=
  ⟨c2_amended.1 apiUserDown 0 "alice" (some alice) store1
      "Cannot connect to Codeforces API - check your internet connection" rfl,
   c2_amended.2 apiStatusDown 5 "alice" alice store1
      "Codeforces API is temporarily unavailable" aliceUser [] rfl rfl (by decide)⟩

/-- C4 counterexample: with a single freshly synced (non-stale) student
the staleness filter selects nobody, yet the scheduled trigger still syncs
that student, so the periodic trigger is not restricted to stale users. -/
theorem c4_counterexample :
    CronJobService.getStudentsNeedingUpdate 1000000 24 storeFresh = []
    ∧ (CronJobService.scheduledTrigger apiAllOk 1000000 24 none idleStatus
        storeFresh).2.2.lastResult
      = some { success := true, studentsProcessed := 1, errors := 0 } :=
  ⟨rfl, rfl⟩

/-- C4 amended: the periodic scheduled trigger (executeSync with forceAll)
invokes the sync engine for every stored user, while the manual trigger
applies the staleness filter: it selects exactly the users whose
lastDataUpdate is null or older than the configured threshold. -/
theorem c4_amended :
    (∀ (api : RemoteApi) (now thr : Int) (st : CronJobStatus) (store : Store),
      st.isRunning = false →
      ∃ l, (CronJobService.scheduledTrigger api now thr none st store).2.2.lastResult
            = some l
        ∧ l.studentsProcessed + l.errors = store.students.length)
    ∧ (∀ (api : RemoteApi) (now thr : Int) (st : CronJobStatus) (store : Store),
        st.isRunning = false →
        ∃ l, (CronJobService.triggerManualSync api now thr none st store).2.2.lastResult
              = some l
          ∧ l.studentsProcessed + l.errors
              = (CronJobService.getStudentsNeedingUpdate now thr store).length)
    ∧ (∀ (now thr : Int) (store : Store) (s : StudentDoc),
        s ∈ CronJobService.getStudentsNeedingUpdate now thr store
          ↔ s ∈ store.students
            ∧ (s.lastDataUpdate = none
                ∨ ∃ t, s.lastDataUpdate = some t
                    ∧ t < now - thr * 60 * 60 * 1000)) := by
  refine ⟨?_, ?_, ?_⟩
  · intro api now thr st store h
    simp only [CronJobService.scheduledTrigger, CronJobService.executeSync, h,
      Bool.false_eq_true, if_false, if_true]
    by_cases he : store.students.isEmpty
    · rw [if_pos he]
      refine ⟨_, rfl, ?_⟩
      have : store.students = [] := by simpa [List.isEmpty_iff] using he
      simp [this]
    · rw [if_neg he]
      exact ⟨_, rfl, cronSyncLoop_total api now store.students store⟩
  · intro api now thr st store h
    simp only [CronJobService.triggerManualSync, CronJobService.executeSync, h,
      Bool.false_eq_true, if_false]
    by_cases he : (CronJobService.getStudentsNeedingUpdate now thr store).isEmpty
    · rw [if_pos he]
      refine ⟨_, rfl, ?_⟩
      have : CronJobService.getStudentsNeedingUpdate now thr store = [] := by
        simpa [List.isEmpty_iff] using he
      simp [this]
    · rw [if_neg he]
      exact ⟨_, rfl,
        cronSyncLoop_total api now (CronJobService.getStudentsNeedingUpdate now thr store) store⟩
  · intro now thr store s
    simp only [CronJobService.getStudentsNeedingUpdate, List.mem_filter]
    cases hl : s.lastDataUpdate with
    | none => simp [hl]
    | some t => simp [hl]

/-- Witness for the amended C4 at a concrete store with one fresh
student. -/
theorem c4_amended_witness :
    (∃ l, (CronJobService.scheduledTrigger apiAllOk 1000000 24 none idleStatus
            storeFresh).2.2.lastResult = some l
      ∧ l.studentsProcessed + l.errors = storeFresh.students.length)
    ∧ (∃ l, (CronJobService.triggerManualSync apiAllOk 1000000 24 none idleStatus
            storeFresh).2.2.lastResult = some l
      ∧ l.studentsProcessed + l.errors
          = (CronJobService.getStudentsNeedingUpdate 1000000 24 storeFresh).length)
    ∧ (alice ∈ CronJobService.getStudentsNeedingUpdate 5 24 store1
        ↔ alice ∈ store1.students
          ∧ (alice.lastDataUpdate = none
              ∨ ∃ t, alice.lastDataUpdate = some t ∧ t < 5 - 24 * 60 * 60 * 1000)) :=
  ⟨c4_amended.1 apiAllOk 1000000 24 idleStatus storeFresh rfl,
   c4_amended.2.1 apiAllOk 1000000 24 idleStatus storeFresh rfl,
   c4_amended.2.2 5 24 store1 alice⟩

lemma syncRatingChanges_eq (handle : String) (sid : Nat)
    (changes : List CodeforcesRatingChange) (store : Store) :
    DataSyncService.syncRatingChanges handle sid changes store
      = DataSyncService.ratingChangeSyncLoop handle sid store changes := rfl

lemma preSaveHook_shift (stu : StudentDoc) (now : Int) :
    ((DataSyncService.preSaveHook { stu with lastDataUpdate := some now }).maxRating
        != stu.maxRating)
      = (DataSyncService.truthy stu.currentRating
          && (!(DataSyncService.truthy stu.maxRating)
              || stu.currentRating.getD 0 > stu.maxRating.getD 0))
    ∧ ((DataSyncService.truthy stu.currentRating
          && (!(DataSyncService.truthy stu.maxRating)
              || stu.currentRating.getD 0 > stu.maxRating.getD 0)) = true →
        (DataSyncService.preSaveHook { stu with lastDataUpdate := some now }).maxRating
          = stu.currentRating)
    ∧ ((DataSyncService.truthy stu.currentRating
          && (!(DataSyncService.truthy stu.maxRating)
              || stu.currentRating.getD 0 > stu.maxRating.getD 0)) = false →
        (DataSyncService.preSaveHook { stu with lastDataUpdate := some now }).maxRating
          = stu.maxRating) := by
  cases hb : (DataSyncService.truthy stu.currentRating
      && (!(DataSyncService.truthy stu.maxRating)
          || stu.currentRating.getD 0 > stu.maxRating.getD 0)) with
  | false =>
      refine ⟨?_, by intro h; exact absurd h (by simp [hb]), fun _ => ?_⟩
      · simp [DataSyncService.preSaveHook, hb]
      · simp [DataSyncService.preSaveHook, hb]
  | true =>
      have hmax : (DataSyncService.preSaveHook
          { stu with lastDataUpdate := some now }).maxRating = stu.currentRating := by
        simp [DataSyncService.preSaveHook, hb]
      refine ⟨?_, fun _ => hmax, by intro h; exact absurd h (by simp [hb])⟩
      rw [hmax]
      cases hcur : stu.currentRating with
      | none => rw [hcur] at hb; simp [DataSyncService.truthy] at hb
      | some c =>
          rw [hcur] at hb
          cases hm : stu.maxRating with
          | none => simp
          | some m =>
              rw [hm] at hb
              simp only [DataSyncService.truthy, Bool.and_eq_true, bne_iff_ne,
                ne_eq, Bool.or_eq_true, Bool.not_eq_true] at hb
              obtain ⟨hc0, hrest⟩ := hb
              simp only [bne_iff_ne, ne_eq, Option.some.injEq]
              rcases hrest with h | h
              · have hm0 : m = 0 := by
                  by_contra hx
                  simp [hx] at h
                intro he; apply hc0; rw [he, hm0]  -- hmm c = m = 0 contradiction shape
              · have : c > m := by simpa using h
                intro he; omega

/-- C5 counterexample: a successful sync against a profile with
maxRating 1700 leaves the stored maxRating at 2000: the pre-save hook,
running on the pre-sync in-memory document (currentRating 2000, maxRating
null), overwrites the value just written from the remote profile. -/
theorem c5_counterexample :
    apiAllOk.userInfo "alice" = Except.ok [aliceUser]
    ∧ aliceUser.maxRating = some 1700
    ∧ (DataSyncService.syncStudentData apiAllOk 5 1 store1).2.2.success = true
    ∧ ((DataSyncService.syncStudentData apiAllOk 5 1 store1).2.1.students.find?
        (fun s => s.id == 1)).map StudentDoc.maxRating = some (some 2000) :=
  ⟨rfl, rfl, rfl, rfl⟩

/-- C5 amended: after a successful per-user sync the stored student has
lastDataUpdate stamped with the sync time, currentRating equal to the
fetched rating when present (unchanged when absent), and maxRating equal
to the fetched maxRating when present (unchanged when absent) unless the
pre-sync in-memory document satisfied the pre-save hook condition
(currentRating truthy and greater than a falsy-or-smaller maxRating), in
which case the hook overwrites maxRating with the pre-sync
currentRating. -/
theorem c5_amended (api : RemoteApi) (now : Int) (sid : Nat) (store : Store)
    (stu : StudentDoc) (u : CodeforcesUser) (l : List CodeforcesUser)
    (subs : List ISubmission)
    (h0 : store.students.find? (fun s => s.id == sid) = some stu)
    (h1 : api.userInfo stu.codeforcesHandle = Except.ok (u :: l))
    (h2 : api.userStatus stu.codeforcesHandle none none = Except.ok subs) :
    (DataSyncService.syncStudentData api now sid store).2.2.success = true
    ∧ ∃ stu', (DataSyncService.syncStudentData api now sid store).2.1.students.find?
          (fun s => s.id == sid) = some stu'
        ∧ stu'.lastDataUpdate = some now
        ∧ stu'.currentRating
            = (match u.rating with | some r => some r | none => stu.currentRating)
        ∧ stu'.maxRating
            = (if DataSyncService.truthy stu.currentRating
                  && (!(DataSyncService.truthy stu.maxRating)
                      || stu.currentRating.getD 0 > stu.maxRating.getD 0)
               then stu.currentRating
               else match u.maxRating with | some m => some m | none => stu.maxRating) := by
  have hid : stu.id = sid := by
    have := List.find?_some h0
    simpa using this
  have hv : (CodeforcesService.validateHandle api stu.codeforcesHandle).2 = true := by
    simp [CodeforcesService.validateHandle, CodeforcesService.getUserInfo, h1]
  obtain ⟨us, hstat, hus⟩ :
      ∃ us, (CodeforcesService.getUserStats api stu.codeforcesHandle).2 = Except.ok us
        ∧ us.user = u := by
    simp only [CodeforcesService.getUserStats, CodeforcesService.getUserInfo, h1]
    exact ⟨_, rfl, rfl⟩
  have hsb : ∀ st0 : Store,
      (DataSyncService.syncSubmissions api stu.codeforcesHandle stu.id st0).2
        = Except.ok (DataSyncService.submissionSyncLoop stu.codeforcesHandle stu.id st0 subs) := by
    intro st0
    simp [DataSyncService.syncSubmissions, CodeforcesService.getUserSubmissions, h2]
  simp only [DataSyncService.syncStudentData, h0, DataSyncService.syncHandle, hv,
    Bool.not_true, Bool.false_eq_true, if_false, hstat, hsb, hus]
  refine ⟨trivial, ?_⟩
  rw [← hid] at h0 ⊢
  have hstudents :
      (DataSyncService.syncRatingChanges stu.codeforcesHandle stu.id us.ratingChanges
        (DataSyncService.submissionSyncLoop stu.codeforcesHandle stu.id
            (DataSyncService.syncContests api store).2.1 subs).1).1.students
      = store.students := by
    rw [syncRatingChanges_eq,
      (ratingChangeSyncLoop_preserves stu.codeforcesHandle stu.id us.ratingChanges _).1,
      (submissionSyncLoop_preserves stu.codeforcesHandle stu.id subs _).1,
      (syncContests_preserves api store).1]
  have hfind1 :
      (DataSyncService.updateStudentRatings
        (DataSyncService.syncRatingChanges stu.codeforcesHandle stu.id us.ratingChanges
          (DataSyncService.submissionSyncLoop stu.codeforcesHandle stu.id
              (DataSyncService.syncContests api store).2.1 subs).1).1
        stu.id u).students.find? (fun s => s.id == stu.id)
      = some (DataSyncService.applyRatingUpdate u stu) := by
    simp only [DataSyncService.updateStudentRatings]
    rw [hstudents]
    exact find?_updateFirstStudent stu.id (DataSyncService.applyRatingUpdate u)
      store.students stu h0 rfl
  simp only [DataSyncService.saveStudentDoc]
  refine ⟨_, find?_updateFirstStudent stu.id _ _ _ hfind1 rfl, rfl, rfl, ?_⟩
  have hs := preSaveHook_shift stu now
  rw [hs.1]
  cases hcond : (DataSyncService.truthy stu.currentRating
      && (!(DataSyncService.truthy stu.maxRating)
          || stu.currentRating.getD 0 > stu.maxRating.getD 0)) with
  | true =>
      simp only [hcond, if_true]
      exact hs.2.1 hcond
  | false =>
      simp only [hcond, Bool.false_eq_true, if_false]
      rfl

/-- Witness for the amended C5 at the concrete store and oracle of the
counterexample. -/
theorem c5_amended_witness :
    (DataSyncService.syncStudentData apiAllOk 5 1 store1).2.2.success = true
    ∧ ∃ stu', (DataSyncService.syncStudentData apiAllOk 5 1 store1).2.1.students.find?
          (fun s => s.id == 1) = some stu'
        ∧ stu'.lastDataUpdate = some 5
        ∧ stu'.currentRating
            = (match aliceUser.rating with | some r => some r | none => alice.currentRating)
        ∧ stu'.maxRating
            = (if DataSyncService.truthy alice.currentRating
                  && (!(DataSyncService.truthy alice.maxRating)
                      || alice.currentRating.getD 0 > alice.maxRating.getD 0)
               then alice.currentRating
               else match aliceUser.maxRating with
                    | some m => some m
                    | none => alice.maxRating) :=
  c5_amended apiAllOk 5 1 store1 alice aliceUser [] [] rfl rfl rfl
